import Mathlib

/-!
Verification development for the Xiaomi BLE thermometer tool
(`xiaomi.py`).  The psychrometric calculator of `Measurement.__init__`
is embedded over the real numbers; Python's `int()` cast becomes
`truncate` (toward zero), Python's `round()` becomes `pyRound`
(round half to even), and the exceptions the constructor can raise
(`ZeroDivisionError`, `ValueError` from `math.log`) are modelled by an
`Option`-returning constructor `mkMeasurement`.
-/

/-- Truncation toward zero, the meaning of Python's `int()` cast on a float. -/
noncomputable def truncate (x : ℝ) : ℤ := if 0 ≤ x then ⌊x⌋ else ⌈x⌉

/-- Python's builtin `round` on a float: round to nearest, ties to even. -/
noncomputable def pyRound (x : ℝ) : ℤ :=
  if Int.fract x = 1 / 2 then (if 2 ∣ ⌊x⌋ then ⌊x⌋ else ⌊x⌋ + 1) else round x

/-- `z1 = (7.45 * temperatureC) / (235 + temperatureC)` from the constructor. -/
noncomputable def z1 (temperatureC : ℝ) : ℝ := (7.45 * temperatureC) / (235 + temperatureC)

/-- `es = 6.1 * math.exp(z1*2.3025851)`, the saturation vapor pressure. -/
noncomputable def es (temperatureC : ℝ) : ℝ := 6.1 * Real.exp (z1 temperatureC * 2.3025851)

/-- `e = es * relHumidity / 100.0`, the actual vapor pressure. -/
noncomputable def e (temperatureC relHumidity : ℝ) : ℝ := es temperatureC * relHumidity / 100.0

/-- `z2 = e / 6.1`. -/
noncomputable def z2 (temperatureC relHumidity : ℝ) : ℝ := e temperatureC relHumidity / 6.1

/-- `absHumidity = round((216.7 * e) / (273.15 + temperatureC) * 10) / 10.0`. -/
noncomputable def absHumidity (temperatureC relHumidity : ℝ) : ℝ :=
  (pyRound ((216.7 * e temperatureC relHumidity) / (273.15 + temperatureC) * 10) : ℝ) / 10.0

/-- `z3 = 0.434292289 * math.log(z2)`. -/
noncomputable def z3 (temperatureC relHumidity : ℝ) : ℝ :=
  0.434292289 * Real.log (z2 temperatureC relHumidity)

/-- `dewPointC = int((235 * z3) / (7.45 - z3) * 10) / 10.0`. -/
noncomputable def dewPointC (temperatureC relHumidity : ℝ) : ℝ :=
  (truncate ((235 * z3 temperatureC relHumidity) / (7.45 - z3 temperatureC relHumidity) * 10) : ℝ) / 10.0

/-- `steamPressure = int(e * 10) / 10.0`. -/
noncomputable def steamPressure (temperatureC relHumidity : ℝ) : ℝ :=
  (truncate (e temperatureC relHumidity * 10) : ℝ) / 10.0

/-- `temperatureF = temperatureC * 9.0/5.0 + 32`. -/
noncomputable def temperatureF (temperatureC : ℝ) : ℝ := temperatureC * 9.0 / 5.0 + 32

/-- `dewPointF = dewPointC * 9.0/5.0 + 32`. -/
noncomputable def dewPointF (temperatureC relHumidity : ℝ) : ℝ :=
  dewPointC temperatureC relHumidity * 9.0 / 5.0 + 32

/-- The record built by `Measurement.__init__`, fields in source order. -/
structure Measurement where
  temperatureC : ℝ
  relHumidity : ℝ
  absHumidity : ℝ
  dewPointC : ℝ
  steamPressure : ℝ
  temperatureF : ℝ
  dewPointF : ℝ

/-- The constructor `Measurement.__init__`.  A `none` result models an
exception escaping the constructor: division by zero in `z1` when
`235 + t = 0`, division by zero in `absHumidity` when `273.15 + t = 0`,
`ValueError` from `math.log` when `z2 ≤ 0`, and division by zero in
`dewPointC` when `7.45 - z3 = 0`, in source evaluation order. -/
noncomputable def mkMeasurement (t h : ℝ) : Option Measurement :=
  if 235 + t = 0 then none
  else if 273.15 + t = 0 then none
  else if z2 t h ≤ 0 then none
  else if 7.45 - z3 t h = 0 then none
  else some ⟨t, h, absHumidity t h, dewPointC t h, steamPressure t h,
             temperatureF t, dewPointF t h⟩

/-- `Measurement.to_dict`, with keys in source order. -/
noncomputable def Measurement.to_dict (m : Measurement) : List (String × ℝ) :=
  [("temperatureC", m.temperatureC),
   ("temperatureF", m.temperatureF),
   ("relHumidity", m.relHumidity),
   ("absHumidity", m.absHumidity),
   ("dewPointC", m.dewPointC),
   ("dewPointF", m.dewPointF),
   ("steamPressure", m.steamPressure)]

/-! ### Properties of `truncate` and `pyRound` -/

lemma truncate_eq_floor {x : ℝ} (hx : 0 ≤ x) : truncate x = ⌊x⌋ := if_pos hx

lemma truncate_eq_ceil {x : ℝ} (hx : ¬ 0 ≤ x) : truncate x = ⌈x⌉ := if_neg hx

lemma truncate_le_add_one (x : ℝ) : (truncate x : ℝ) ≤ x + 1 := by
  unfold truncate
  split_ifs with h
  · have := Int.floor_le x
    linarith
  · have := Int.ceil_lt_add_one x
    linarith

lemma sub_one_le_truncate (x : ℝ) : x - 1 ≤ (truncate x : ℝ) := by
  unfold truncate
  split_ifs with h
  · have := Int.sub_one_lt_floor x
    linarith
  · have := Int.le_ceil x
    linarith

lemma truncate_le_self {x : ℝ} (hx : 0 ≤ x) : (truncate x : ℝ) ≤ x := by
  rw [truncate_eq_floor hx]
  exact_mod_cast Int.floor_le x

lemma abs_truncate_le (x : ℝ) : |(truncate x : ℝ)| ≤ |x| := by
  unfold truncate
  split_ifs with h
  · rw [abs_of_nonneg h, abs_of_nonneg]
    · exact_mod_cast Int.floor_le x
    · exact_mod_cast Int.floor_nonneg.mpr h
  · push_neg at h
    rw [abs_of_nonpos h.le, abs_of_nonpos]
    · have := Int.le_ceil x
      linarith
    · exact_mod_cast Int.ceil_le.mpr (by exact_mod_cast h.le)

lemma truncate_mono {x y : ℝ} (hxy : x ≤ y) : truncate x ≤ truncate y := by
  unfold truncate
  split_ifs with h1 h2 h2
  · exact Int.floor_mono hxy
  · exact absurd (h1.trans hxy) h2
  · have hc : ⌈x⌉ ≤ 0 := Int.ceil_le.mpr (by push_neg at h1; exact_mod_cast h1.le)
    have hf : 0 ≤ ⌊y⌋ := Int.floor_nonneg.mpr h2
    omega
  · exact Int.ceil_mono hxy

lemma round_real_mono {x y : ℝ} (hxy : x ≤ y) : round x ≤ round y := by
  rw [round_eq, round_eq]
  exact Int.floor_mono (by linarith)

lemma fract_half_eq (x : ℝ) (h : Int.fract x = 1 / 2) : x = (⌊x⌋ : ℝ) + 1 / 2 := by
  have hs := Int.self_sub_floor x
  rw [h] at hs
  linarith

lemma pyRound_eq_round {x : ℝ} (h : Int.fract x ≠ 1 / 2) : pyRound x = round x := by
  unfold pyRound
  rw [if_neg h]

lemma abs_sub_pyRound (x : ℝ) : |x - (pyRound x : ℝ)| ≤ 1 / 2 := by
  unfold pyRound
  split_ifs with h h2
  · have hx := fract_half_eq x h
    rw [abs_of_nonneg (by linarith)]
    linarith
  · have hx := fract_half_eq x h
    push_cast
    rw [abs_of_nonpos (by linarith)]
    linarith
  · exact abs_sub_round x

lemma pyRound_le_floor_add_one (x : ℝ) (h : Int.fract x = 1 / 2) :
    pyRound x ≤ ⌊x⌋ + 1 := by
  unfold pyRound
  rw [if_pos h]
  split_ifs <;> omega

lemma floor_le_pyRound (x : ℝ) (h : Int.fract x = 1 / 2) : ⌊x⌋ ≤ pyRound x := by
  unfold pyRound
  rw [if_pos h]
  split_ifs <;> omega

lemma pyRound_mono {x y : ℝ} (hxy : x ≤ y) : pyRound x ≤ pyRound y := by
  by_cases tx : Int.fract x = 1 / 2 <;> by_cases ty : Int.fract y = 1 / 2
  · have hx := fract_half_eq x tx
    have hy := fract_half_eq y ty
    have hfl : ⌊x⌋ ≤ ⌊y⌋ := Int.floor_mono hxy
    rcases eq_or_lt_of_le hfl with heq | hlt
    · have hxy' : x = y := by rw [hx, hy, heq]
      rw [hxy']
    · have h1 := pyRound_le_floor_add_one x tx
      have h2 := floor_le_pyRound y ty
      omega
  · have hx := fract_half_eq x tx
    have h1 := pyRound_le_floor_add_one x tx
    have h2 : ⌊x⌋ + 1 ≤ round y := by
      rw [round_eq]
      apply Int.le_floor.mpr
      push_cast
      linarith
    rw [pyRound_eq_round ty]
    omega
  · have hy := fract_half_eq y ty
    have h2 := floor_le_pyRound y ty
    have h1 : round x ≤ ⌊y⌋ := by
      rcases eq_or_lt_of_le hxy with heq | hlt
      · exact absurd (heq ▸ tx) (fun h => h ty)
      · rw [round_eq]
        have : ⌊x + 1 / 2⌋ < ⌊y⌋ + 1 := by
          apply Int.floor_lt.mpr
          push_cast
          linarith
        omega
    rw [pyRound_eq_round tx]
    omega
  · rw [pyRound_eq_round tx, pyRound_eq_round ty]
    exact round_real_mono hxy

/-! ### Facts about the vapor-pressure chain -/

lemma es_pos (t : ℝ) : 0 < es t := by
  unfold es
  positivity

lemma e_pos (t : ℝ) {h : ℝ} (hh : 0 < h) : 0 < e t h := by
  unfold e
  have := es_pos t
  positivity

lemma z2_pos (t : ℝ) {h : ℝ} (hh : 0 < h) : 0 < z2 t h := by
  unfold z2
  have := e_pos t hh
  positivity

lemma z3_decomp (t : ℝ) {h : ℝ} (hh : 0 < h) :
    z3 t h = 0.434292289 * (z1 t * 2.3025851 + Real.log (h / 100)) := by
  unfold z3 z2 e es
  rw [show (6.1 : ℝ) * Real.exp (z1 t * 2.3025851) * h / 100.0 / 6.1
        = Real.exp (z1 t * 2.3025851) * (h / 100) by ring]
  rw [Real.log_mul (Real.exp_ne_zero _) (by positivity), Real.log_exp]

lemma z3_at_100 (t : ℝ) : z3 t 100 = 0.434292289 * (z1 t * 2.3025851) := by
  rw [z3_decomp t (by norm_num)]
  norm_num

lemma g_z1 {t : ℝ} (ht : 235 + t ≠ 0) : 235 * z1 t / (7.45 - z1 t) = t := by
  have hsub : 7.45 - z1 t = 7.45 * 235 / (235 + t) := by
    unfold z1
    field_simp
    ring
  rw [hsub]
  unfold z1
  field_simp
  ring

lemma g_mono {a b : ℝ} (hab : a ≤ b) (hb : b < 7.45) :
    235 * a / (7.45 - a) ≤ 235 * b / (7.45 - b) := by
  have ha' : (0:ℝ) < 7.45 - a := by linarith
  have hb' : (0:ℝ) < 7.45 - b := by linarith
  rw [div_le_div_iff₀ ha' hb']
  nlinarith

lemma z1_lower {t : ℝ} (h1 : -20 ≤ t) : -0.7 ≤ z1 t := by
  have hd : (0:ℝ) < 235 + t := by linarith
  unfold z1
  rw [le_div_iff₀ hd]
  nlinarith

lemma z1_upper {t : ℝ} (h1 : -20 ≤ t) (h2 : t ≤ 50) : z1 t ≤ 1.31 := by
  have hd : (0:ℝ) < 235 + t := by linarith
  unfold z1
  rw [div_le_iff₀ hd]
  nlinarith

lemma g_k_close {A : ℝ} (h1 : -0.7 ≤ A) (h2 : A ≤ 1.31) :
    |235 * (0.434292289 * (A * 2.3025851)) / (7.45 - 0.434292289 * (A * 2.3025851))
      - 235 * A / (7.45 - A)| ≤ 0.0004 := by
  set B : ℝ := 0.434292289 * (A * 2.3025851) with hB
  have hk1 : (0.434292289 : ℝ) * 2.3025851 ≤ 1 := by norm_num
  have hk0 : (0 : ℝ) < 0.434292289 * 2.3025851 := by norm_num
  have hB1 : B ≤ 1.31 := by rw [hB]; nlinarith
  have hB2 : -0.7 ≤ B := by rw [hB]; nlinarith
  have hda : (6.14 : ℝ) ≤ 7.45 - A := by linarith
  have hdb : (6.14 : ℝ) ≤ 7.45 - B := by linarith
  have hda0 : (0 : ℝ) < 7.45 - A := by linarith
  have hdb0 : (0 : ℝ) < 7.45 - B := by linarith
  have key : 235 * B / (7.45 - B) - 235 * A / (7.45 - A)
      = 235 * 7.45 * (A * (0.434292289 * 2.3025851 - 1)) / ((7.45 - B) * (7.45 - A)) := by
    rw [hB]
    field_simp
    ring
  rw [key, abs_div]
  have hnum : |235 * 7.45 * (A * (0.434292289 * 2.3025851 - 1))| ≤ 0.0117 := by
    have hAabs : |A| ≤ 1.31 := abs_le.mpr ⟨by linarith, h2⟩
    have hkabs : |(0.434292289 : ℝ) * 2.3025851 - 1| ≤ 0.0000051 := by
      rw [abs_le]
      constructor <;> norm_num
    have h235 : |(235 : ℝ) * 7.45| = 1750.75 := by
      rw [abs_of_pos] <;> norm_num
    rw [abs_mul, h235, abs_mul]
    nlinarith [abs_nonneg A, abs_nonneg ((0.434292289 : ℝ) * 2.3025851 - 1)]
  have hden : (37.6996 : ℝ) ≤ |(7.45 - B) * (7.45 - A)| := by
    rw [abs_of_pos (mul_pos hdb0 hda0)]
    nlinarith
  have hden0 : (0 : ℝ) < |(7.45 - B) * (7.45 - A)| := by linarith
  rw [div_le_iff₀ hden0]
  nlinarith [abs_nonneg (235 * 7.45 * (A * (0.434292289 * 2.3025851 - 1)))]

lemma raw_dew_le {t h : ℝ} (ht1 : -20 ≤ t) (ht2 : t ≤ 50) (hh1 : 0 < h) (hh2 : h ≤ 100) :
    235 * z3 t h / (7.45 - z3 t h) ≤ t + 0.0004 := by
  have hA1 := z1_lower ht1
  have hA2 := z1_upper ht1 ht2
  have hz3 : z3 t h ≤ 0.434292289 * (z1 t * 2.3025851) := by
    rw [z3_decomp t hh1]
    have hlog : Real.log (h / 100) ≤ 0 := Real.log_nonpos (by positivity) (by linarith)
    nlinarith
  have hk1 : (0.434292289 : ℝ) * 2.3025851 ≤ 1 := by norm_num
  have hk0 : (0 : ℝ) < 0.434292289 * 2.3025851 := by norm_num
  have hB1 : 0.434292289 * (z1 t * 2.3025851) ≤ 1.31 := by nlinarith
  have hmono := g_mono hz3 (by linarith)
  have hclose := g_k_close hA1 hA2
  have hgz : 235 * z1 t / (7.45 - z1 t) = t := g_z1 (by linarith)
  rw [hgz] at hclose
  have := (abs_le.mp hclose).2
  linarith

lemma raw_dew_close_100 {t : ℝ} (ht1 : -20 ≤ t) (ht2 : t ≤ 50) :
    |235 * z3 t 100 / (7.45 - z3 t 100) - t| ≤ 0.0004 := by
  rw [z3_at_100]
  have hclose := g_k_close (z1_lower ht1) (z1_upper ht1 ht2)
  have hgz : 235 * z1 t / (7.45 - z1 t) = t := g_z1 (by linarith)
  rw [hgz] at hclose
  exact hclose

lemma mkMeasurement_some_eq {t h : ℝ} {m : Measurement} (hm : mkMeasurement t h = some m) :
    m = ⟨t, h, absHumidity t h, dewPointC t h, steamPressure t h,
         temperatureF t, dewPointF t h⟩ := by
  unfold mkMeasurement at hm
  split_ifs at hm
  exact (Option.some.inj hm).symm

/-- C4 counterexample: at temperatureC = -20 and relHumidity = 100 the code
stores dewPointC = -19.9, which exceeds the input temperature -20 by a full
0.1 (far beyond floating tolerance), because truncation toward zero moves
negative values up and the constant product 0.434292289 * 2.3025851 is
slightly below 1. -/
theorem dewPointC_exceeds_temperature_at_minus20 :
    dewPointC (-20) 100 = -19.9 ∧ (-20 : ℝ) + 0.01 < dewPointC (-20) 100 := by
  have hX : truncate (235 * z3 (-20) 100 / (7.45 - z3 (-20) 100) * 10) = -199 := by
    rw [z3_at_100]
    rw [truncate_eq_ceil (by norm_num [z1])]
    rw [Int.ceil_eq_iff]
    constructor
    · push_cast
      norm_num [z1]
    · push_cast
      norm_num [z1]
  constructor
  · unfold dewPointC
    rw [hX]
    norm_num
  · unfold dewPointC
    rw [hX]
    norm_num

/-- C4 amended: for temperatureC in -20..50 and relHumidity in (0,100], the
stored dewPointC never exceeds temperatureC by more than 0.101 (one 0.1
truncation step plus the error of the approximate constants). -/
theorem dewPointC_le_temperature_add_grain (t h : ℝ)
    (ht1 : -20 ≤ t) (ht2 : t ≤ 50) (hh1 : 0 < h) (hh2 : h ≤ 100) :
    dewPointC t h ≤ t + 0.101 ∧
      ∀ m, mkMeasurement t h = some m → m.dewPointC ≤ t + 0.101 := by
  have hraw := raw_dew_le ht1 ht2 hh1 hh2
  have htr := truncate_le_add_one (235 * z3 t h / (7.45 - z3 t h) * 10)
  have hd : dewPointC t h ≤ t + 0.101 := by
    unfold dewPointC
    linarith
  exact ⟨hd, fun m hm => by rw [mkMeasurement_some_eq hm]; exact hd⟩

/-- C4 amended, instantiated at temperatureC = 25, relHumidity = 50. -/
theorem dewPointC_le_temperature_add_grain_witness :
    dewPointC 25 50 ≤ 25 + 0.101 ∧
      ∀ m, mkMeasurement 25 50 = some m → m.dewPointC ≤ 25 + 0.101 :=
  dewPointC_le_temperature_add_grain 25 50 (by norm_num) (by norm_num)
    (by norm_num) (by norm_num)

/-- C6 counterexample: at temperatureC = 15.000001 and relHumidity = 100 the
stored dewPointC is 14.9, which differs from the temperature by 0.100001,
strictly more than the 0.1 truncation grain. -/
theorem dewPointC_sat_beyond_grain :
    dewPointC 15.000001 100 = 14.9 ∧
      0.1 < |dewPointC 15.000001 100 - 15.000001| := by
  have hX : truncate (235 * z3 15.000001 100 / (7.45 - z3 15.000001 100) * 10) = 149 := by
    rw [z3_at_100]
    rw [truncate_eq_floor (by norm_num [z1])]
    rw [Int.floor_eq_iff]
    constructor
    · push_cast
      norm_num [z1]
    · push_cast
      norm_num [z1]
  have h1 : dewPointC 15.000001 100 = 14.9 := by
    unfold dewPointC
    rw [hX]
    norm_num
  refine ⟨h1, ?_⟩
  rw [h1, abs_of_nonpos (by norm_num)]
  norm_num

/-- C6 amended: at saturation (relHumidity = 100) and temperatureC in
-20..50, the stored dewPointC agrees with the temperature to within 0.101
(one 0.1 truncation step plus the error of the approximate constants). -/
theorem dewPointC_close_at_saturation (t : ℝ) (ht1 : -20 ≤ t) (ht2 : t ≤ 50) :
    |dewPointC t 100 - t| ≤ 0.101 ∧
      ∀ m, mkMeasurement t 100 = some m → |m.dewPointC - t| ≤ 0.101 := by
  have hclose := abs_le.mp (raw_dew_close_100 ht1 ht2)
  have htr1 := truncate_le_add_one (235 * z3 t 100 / (7.45 - z3 t 100) * 10)
  have htr2 := sub_one_le_truncate (235 * z3 t 100 / (7.45 - z3 t 100) * 10)
  have hd : |dewPointC t 100 - t| ≤ 0.101 := by
    unfold dewPointC
    rw [abs_le]
    constructor <;> linarith [hclose.1, hclose.2]
  exact ⟨hd, fun m hm => by rw [mkMeasurement_some_eq hm]; exact hd⟩

/-- C6 amended, instantiated at temperatureC = 0. -/
theorem dewPointC_close_at_saturation_witness :
    |dewPointC 0 100 - 0| ≤ 0.101 ∧
      ∀ m, mkMeasurement 0 100 = some m → |m.dewPointC - 0| ≤ 0.101 :=
  dewPointC_close_at_saturation 0 (by norm_num) (by norm_num)

/-- C2: relative humidity ≤ 0 (which gives `math.log` a nonpositive
argument), and likewise temperatureC = -235 (zero denominator in `z1`),
make the constructor raise instead of producing a `Measurement`. -/
theorem mkMeasurement_domain_error (t h : ℝ) (hcase : h ≤ 0 ∨ t = -235) :
    mkMeasurement t h = none := by
  rcases hcase with hh | ht
  · have hz2 : z2 t h ≤ 0 := by
      have hes := es_pos t
      have h1 : es t * h ≤ 0 := by nlinarith
      have h2 : z2 t h = es t * h * (1 / 610) := by
        unfold z2 e
        ring
      rw [h2]
      linarith
    unfold mkMeasurement
    by_cases h1 : 235 + t = 0
    · rw [if_pos h1]
    · rw [if_neg h1]
      by_cases h2 : 273.15 + t = 0
      · rw [if_pos h2]
      · rw [if_neg h2, if_pos hz2]
  · unfold mkMeasurement
    rw [ht]
    norm_num

/-- C2, instantiated at temperatureC = 25 and relHumidity = 0. -/
theorem mkMeasurement_domain_error_witness : mkMeasurement 25 0 = none :=
  mkMeasurement_domain_error 25 0 (Or.inl (by norm_num))

/-! ### The formulas as the specification states them (claim C1) -/

/-- The saturation vapor pressure exactly as the spec spells it. -/
noncomputable def claimed_es (t : ℝ) : ℝ := 6.1 * Real.exp ((7.45 * t) / (235 + t) * 2.3025851)

/-- The actual vapor pressure exactly as the spec spells it. -/
noncomputable def claimed_e (t h : ℝ) : ℝ := claimed_es t * h / 100.0

/-- The ×10 value whose standard rounding yields `absHumidity`. -/
noncomputable def claimed_absHumidity_x10 (t h : ℝ) : ℝ :=
  (216.7 * claimed_e t h) / (273.15 + t) * 10

/-- `z3 = 0.434292289 * ln(e / 6.1)` as the spec spells it. -/
noncomputable def claimed_z3 (t h : ℝ) : ℝ := 0.434292289 * Real.log (claimed_e t h / 6.1)

/-- The ×10 value whose truncation toward zero yields `dewPointC`. -/
noncomputable def claimed_dew_x10 (t h : ℝ) : ℝ :=
  (235 * claimed_z3 t h) / (7.45 - claimed_z3 t h) * 10

/-- The ×10 value whose truncation toward zero yields `steamPressure`. -/
noncomputable def claimed_steam_x10 (t h : ℝ) : ℝ := claimed_e t h * 10

/-- C1 counterexample: at temperatureC = -273.15 (h = 50 > 0 and t ≠ -235)
the constructor divides by `273.15 + temperatureC = 0` while computing
`absHumidity` and raises, so no `Measurement` is produced at all. -/
theorem mkMeasurement_fails_at_abs_zero : mkMeasurement (-273.15) 50 = none := by
  unfold mkMeasurement
  rw [if_neg (by norm_num), if_pos (by norm_num)]

/-- C1 amended: for relHumidity > 0 and temperatureC not -235 and not
-273.15, with the dew-point denominator nonzero, the constructor succeeds
and its fields are exactly the claimed formulas: `absHumidity` is the
nearest 0.1 of the ×10 value (distance at most 1/2), while `dewPointC` and
`steamPressure` truncate their ×10 values toward zero (the magnitude never
increases, so they are never rounded away from zero). -/
theorem mkMeasurement_formulas (t h : ℝ) (hh : 0 < h) (ht1 : t ≠ -235)
    (ht2 : t ≠ -273.15) (hz : 7.45 - z3 t h ≠ 0) :
    ∃ m, mkMeasurement t h = some m ∧
      m.temperatureC = t ∧ m.relHumidity = h ∧
      m.absHumidity = (pyRound (claimed_absHumidity_x10 t h) : ℝ) / 10.0 ∧
      |claimed_absHumidity_x10 t h - (pyRound (claimed_absHumidity_x10 t h) : ℝ)| ≤ 1 / 2 ∧
      m.dewPointC = (truncate (claimed_dew_x10 t h) : ℝ) / 10.0 ∧
      |(truncate (claimed_dew_x10 t h) : ℝ)| ≤ |claimed_dew_x10 t h| ∧
      m.steamPressure = (truncate (claimed_steam_x10 t h) : ℝ) / 10.0 ∧
      |(truncate (claimed_steam_x10 t h) : ℝ)| ≤ |claimed_steam_x10 t h| := by
  have ht1' : 235 + t ≠ 0 := fun hc => ht1 (by linarith)
  have ht2' : 273.15 + t ≠ 0 := fun hc => ht2 (by linarith)
  have hz2' : ¬ z2 t h ≤ 0 := not_le.mpr (z2_pos t hh)
  have hmk : mkMeasurement t h = some ⟨t, h, absHumidity t h, dewPointC t h,
      steamPressure t h, temperatureF t, dewPointF t h⟩ := by
    unfold mkMeasurement
    rw [if_neg ht1', if_neg ht2', if_neg hz2', if_neg hz]
  exact ⟨_, hmk, rfl, rfl, rfl, abs_sub_pyRound _, rfl, abs_truncate_le _,
    rfl, abs_truncate_le _⟩

lemma z3_0_100 : z3 0 100 = 0 := by
  rw [z3_at_100]
  norm_num [z1]

lemma mk_0_100 : mkMeasurement 0 100 = some ⟨0, 100, absHumidity 0 100,
    dewPointC 0 100, steamPressure 0 100, temperatureF 0, dewPointF 0 100⟩ := by
  unfold mkMeasurement
  rw [if_neg (by norm_num), if_neg (by norm_num),
    if_neg (not_le.mpr (z2_pos 0 (by norm_num))), if_neg (by rw [z3_0_100]; norm_num)]

/-- C1 amended, instantiated at temperatureC = 0, relHumidity = 100. -/
theorem mkMeasurement_formulas_witness :
    ∃ m, mkMeasurement 0 100 = some m ∧
      m.temperatureC = 0 ∧ m.relHumidity = 100 ∧
      m.absHumidity = (pyRound (claimed_absHumidity_x10 0 100) : ℝ) / 10.0 ∧
      |claimed_absHumidity_x10 0 100 - (pyRound (claimed_absHumidity_x10 0 100) : ℝ)| ≤ 1 / 2 ∧
      m.dewPointC = (truncate (claimed_dew_x10 0 100) : ℝ) / 10.0 ∧
      |(truncate (claimed_dew_x10 0 100) : ℝ)| ≤ |claimed_dew_x10 0 100| ∧
      m.steamPressure = (truncate (claimed_steam_x10 0 100) : ℝ) / 10.0 ∧
      |(truncate (claimed_steam_x10 0 100) : ℝ)| ≤ |claimed_steam_x10 0 100| :=
  mkMeasurement_formulas 0 100 (by norm_num) (by norm_num) (by norm_num)
    (by rw [z3_0_100]; norm_num)

/-- C5: on every successfully constructed record, `temperatureF` and
`dewPointF` are exactly `C * 9/5 + 32` of `temperatureC` and of the
already-truncated `dewPointC`. -/
theorem fahrenheit_identity (t h : ℝ) (m : Measurement)
    (hm : mkMeasurement t h = some m) :
    m.temperatureF = m.temperatureC * 9 / 5 + 32 ∧
      m.dewPointF = m.dewPointC * 9 / 5 + 32 := by
  rw [mkMeasurement_some_eq hm]
  constructor
  · show temperatureF t = t * 9 / 5 + 32
    unfold temperatureF
    norm_num
  · show dewPointF t h = dewPointC t h * 9 / 5 + 32
    unfold dewPointF
    norm_num

/-- C5, instantiated on the measurement built from (0, 100). -/
theorem fahrenheit_identity_witness :
    ∃ m, mkMeasurement 0 100 = some m ∧
      m.temperatureF = m.temperatureC * 9 / 5 + 32 ∧
      m.dewPointF = m.dewPointC * 9 / 5 + 32 :=
  ⟨_, mk_0_100, fahrenheit_identity 0 100 _ mk_0_100⟩

/-- C8: `to_dict` is a flat key-value list whose keys are exactly the seven
field names, each mapped to the field of the same name. -/
theorem to_dict_fields (m : Measurement) :
    m.to_dict.map Prod.fst = ["temperatureC", "temperatureF", "relHumidity",
      "absHumidity", "dewPointC", "dewPointF", "steamPressure"] ∧
    m.to_dict.lookup "temperatureC" = some m.temperatureC ∧
    m.to_dict.lookup "temperatureF" = some m.temperatureF ∧
    m.to_dict.lookup "relHumidity" = some m.relHumidity ∧
    m.to_dict.lookup "absHumidity" = some m.absHumidity ∧
    m.to_dict.lookup "dewPointC" = some m.dewPointC ∧
    m.to_dict.lookup "dewPointF" = some m.dewPointF ∧
    m.to_dict.lookup "steamPressure" = some m.steamPressure :=
  ⟨rfl, rfl, rfl, rfl, rfl, rfl, rfl, rfl⟩

lemma e_0_50 : e 0 50 = 3.05 := by
  unfold e es z1
  norm_num [Real.exp_zero]

lemma e_0_50_1 : e 0 50.1 = 3.0561 := by
  unfold e es z1
  norm_num [Real.exp_zero]

lemma z3_0_50_neg : z3 0 50 < 0 := by
  have hz2 : z2 0 50 = 0.5 := by
    unfold z2
    rw [e_0_50]
    norm_num
  unfold z3
  rw [hz2]
  have hlog : Real.log 0.5 < 0 := Real.log_neg (by norm_num) (by norm_num)
  nlinarith

lemma z3_0_50_1_neg : z3 0 50.1 < 0 := by
  have hz2 : z2 0 50.1 = 0.501 := by
    unfold z2
    rw [e_0_50_1]
    norm_num
  unfold z3
  rw [hz2]
  have hlog : Real.log 0.501 < 0 := Real.log_neg (by norm_num) (by norm_num)
  nlinarith

lemma mk_0_50 : mkMeasurement 0 50 = some ⟨0, 50, absHumidity 0 50,
    dewPointC 0 50, steamPressure 0 50, temperatureF 0, dewPointF 0 50⟩ := by
  unfold mkMeasurement
  rw [if_neg (by norm_num), if_neg (by norm_num),
    if_neg (not_le.mpr (z2_pos 0 (by norm_num))),
    if_neg (by have := z3_0_50_neg; intro hc; linarith)]

lemma mk_0_50_1 : mkMeasurement 0 50.1 = some ⟨0, 50.1, absHumidity 0 50.1,
    dewPointC 0 50.1, steamPressure 0 50.1, temperatureF 0, dewPointF 0 50.1⟩ := by
  unfold mkMeasurement
  rw [if_neg (by norm_num), if_neg (by norm_num),
    if_neg (not_le.mpr (z2_pos 0 (by norm_num))),
    if_neg (by have := z3_0_50_1_neg; intro hc; linarith)]

lemma steam_0_50 : steamPressure 0 50 = 3.0 := by
  unfold steamPressure
  rw [e_0_50]
  rw [truncate_eq_floor (by norm_num)]
  rw [show ⌊(3.05 : ℝ) * 10⌋ = 30 by rw [Int.floor_eq_iff]; constructor <;> push_cast <;> norm_num]
  norm_num

lemma steam_0_50_1 : steamPressure 0 50.1 = 3.0 := by
  unfold steamPressure
  rw [e_0_50_1]
  rw [truncate_eq_floor (by norm_num)]
  rw [show ⌊(3.0561 : ℝ) * 10⌋ = 30 by rw [Int.floor_eq_iff]; constructor <;> push_cast <;> norm_num]
  norm_num

/-- C3 counterexample: at temperatureC = 0, raising relHumidity from 50 to
50.1 leaves steamPressure unchanged at 3.0 (both ×10 values, 30.5 and
30.561, truncate to 30), so the stored field is not strictly increasing. -/
theorem steamPressure_not_strictly_monotone :
    ∃ m1 m2, mkMeasurement 0 50 = some m1 ∧ mkMeasurement 0 50.1 = some m2 ∧
      ¬ m1.steamPressure < m2.steamPressure := by
  refine ⟨_, _, mk_0_50, mk_0_50_1, ?_⟩
  show ¬ steamPressure 0 50 < steamPressure 0 50.1
  rw [steam_0_50, steam_0_50_1]
  exact lt_irrefl _

/-- C3 amended: holding temperatureC fixed (above -235) and taking
humidities 0 < h1 < h2 below the dew-point pole (z3 of h2 stays under
7.45, which holds throughout the physical range h ≤ 100), the stored
absHumidity, dewPointC and steamPressure are monotone in relHumidity, but
only non-strictly: the 0.1 quantization can map nearby humidities to equal
stored values. -/
theorem derived_fields_monotone_in_humidity (t h1 h2 : ℝ) (ht : -235 < t)
    (hh1 : 0 < h1) (h12 : h1 < h2) (hz : z3 t h2 < 7.45) :
    ∃ m1 m2, mkMeasurement t h1 = some m1 ∧ mkMeasurement t h2 = some m2 ∧
      m1.absHumidity ≤ m2.absHumidity ∧ m1.dewPointC ≤ m2.dewPointC ∧
      m1.steamPressure ≤ m2.steamPressure := by
  have hden : (0 : ℝ) < 235 + t := by linarith
  have hden2 : (0 : ℝ) < 273.15 + t := by linarith
  have hh2 : 0 < h2 := hh1.trans h12
  have hes := es_pos t
  have hemono : e t h1 < e t h2 := by
    unfold e
    have hm : es t * h1 < es t * h2 := by nlinarith
    linarith
  have hz3lt : z3 t h1 < z3 t h2 := by
    unfold z3 z2
    have h1pos : 0 < e t h1 / 6.1 := div_pos (e_pos t hh1) (by norm_num)
    have hlog := Real.log_lt_log h1pos (by gcongr : e t h1 / 6.1 < e t h2 / 6.1)
    nlinarith
  have hz1' : z3 t h1 < 7.45 := hz3lt.trans hz
  have hmk1 : mkMeasurement t h1 = some ⟨t, h1, absHumidity t h1, dewPointC t h1,
      steamPressure t h1, temperatureF t, dewPointF t h1⟩ := by
    unfold mkMeasurement
    rw [if_neg hden.ne', if_neg hden2.ne', if_neg (not_le.mpr (z2_pos t hh1)),
      if_neg (by intro hc; linarith)]
  have hmk2 : mkMeasurement t h2 = some ⟨t, h2, absHumidity t h2, dewPointC t h2,
      steamPressure t h2, temperatureF t, dewPointF t h2⟩ := by
    unfold mkMeasurement
    rw [if_neg hden.ne', if_neg hden2.ne', if_neg (not_le.mpr (z2_pos t hh2)),
      if_neg (by intro hc; linarith)]
  have habs : absHumidity t h1 ≤ absHumidity t h2 := by
    have harg : (216.7 * e t h1) / (273.15 + t) * 10 ≤ (216.7 * e t h2) / (273.15 + t) * 10 := by
      have hstep : (216.7 * e t h1) / (273.15 + t) ≤ (216.7 * e t h2) / (273.15 + t) :=
        (div_le_div_iff_of_pos_right hden2).mpr (by nlinarith)
      linarith
    have hpy : ((pyRound ((216.7 * e t h1) / (273.15 + t) * 10)) : ℝ)
        ≤ ((pyRound ((216.7 * e t h2) / (273.15 + t) * 10)) : ℝ) := by
      exact_mod_cast pyRound_mono harg
    unfold absHumidity
    linarith
  have hdew : dewPointC t h1 ≤ dewPointC t h2 := by
    have hg := g_mono hz3lt.le hz
    have harg : 235 * z3 t h1 / (7.45 - z3 t h1) * 10
        ≤ 235 * z3 t h2 / (7.45 - z3 t h2) * 10 := by linarith
    have htr : ((truncate (235 * z3 t h1 / (7.45 - z3 t h1) * 10)) : ℝ)
        ≤ ((truncate (235 * z3 t h2 / (7.45 - z3 t h2) * 10)) : ℝ) := by
      exact_mod_cast truncate_mono harg
    unfold dewPointC
    linarith
  have hsteam : steamPressure t h1 ≤ steamPressure t h2 := by
    have harg : e t h1 * 10 ≤ e t h2 * 10 := by linarith
    have htr : ((truncate (e t h1 * 10)) : ℝ) ≤ ((truncate (e t h2 * 10)) : ℝ) := by
      exact_mod_cast truncate_mono harg
    unfold steamPressure
    linarith
  exact ⟨_, _, hmk1, hmk2, habs, hdew, hsteam⟩

/-- C3 amended, instantiated at temperatureC = 0, h1 = 50, h2 = 100. -/
theorem derived_fields_monotone_in_humidity_witness :
    ∃ m1 m2, mkMeasurement 0 50 = some m1 ∧ mkMeasurement 0 100 = some m2 ∧
      m1.absHumidity ≤ m2.absHumidity ∧ m1.dewPointC ≤ m2.dewPointC ∧
      m1.steamPressure ≤ m2.steamPressure :=
  derived_fields_monotone_in_humidity 0 50 100 (by norm_num) (by norm_num)
    (by norm_num) (by rw [z3_0_100]; norm_num)

/-! ### The wait loop of `requestMeasurement` -/

/-- The wait loop `while not self._measurement and i < 10: sleep; i += 1`.
`s j` is the value of `self._measurement` observed at the check made after
`j` sleeps; the result is the loop counter at exit, i.e. the number of
sleeps performed. -/
def pollCount {α : Type} (s : ℕ → Option α) (i : ℕ) : ℕ :=
  if h : (s i).isNone ∧ i < 10 then pollCount s (i + 1) else i
termination_by 10 - i
decreasing_by
  simp_wf
  omega

lemma pollCount_le_aux {α : Type} (s : ℕ → Option α) :
    ∀ n i, 10 - i ≤ n → i ≤ 10 → pollCount s i ≤ 10 := by
  intro n
  induction n with
  | zero =>
    intro i h0 hi
    have hi10 : i = 10 := by omega
    subst hi10
    unfold pollCount
    simp
  | succ n ih =>
    intro i h0 hi
    unfold pollCount
    split_ifs with h
    · exact ih (i + 1) (by omega) (by omega)
    · exact hi

lemma pollCount_none_aux {α : Type} (s : ℕ → Option α)
    (hnone : ∀ j, j ≤ 10 → s j = none) :
    ∀ n i, 10 - i ≤ n → i ≤ 10 → pollCount s i = 10 := by
  intro n
  induction n with
  | zero =>
    intro i h0 hi
    have hi10 : i = 10 := by omega
    subst hi10
    unfold pollCount
    simp
  | succ n ih =>
    intro i h0 hi
    unfold pollCount
    split_ifs with h
    · exact ih (i + 1) (by omega) (by omega)
    · rcases Nat.lt_or_ge i 10 with hlt | hge
      · exfalso
        apply h
        refine ⟨?_, hlt⟩
        rw [hnone i (by omega)]
        rfl
      · omega

lemma pollCount_first_aux {α : Type} (s : ℕ → Option α) {j : ℕ} (hj : j ≤ 10)
    (hsome : (s j).isSome) (hfirst : ∀ j', j' < j → s j' = none) :
    ∀ n i, j - i ≤ n → i ≤ j → pollCount s i = j := by
  intro n
  induction n with
  | zero =>
    intro i h0 hi
    have hij : i = j := by omega
    subst hij
    unfold pollCount
    rw [dif_neg]
    intro hcon
    rw [Option.isNone_iff_eq_none] at hcon
    rw [hcon.1] at hsome
    simp at hsome
  | succ n ih =>
    intro i h0 hi
    rcases Nat.lt_or_ge i j with hlt | hge
    · unfold pollCount
      rw [dif_pos ⟨by rw [hfirst i hlt]; rfl, by omega⟩]
      exact ih (i + 1) (by omega) (by omega)
    · have hij : i = j := by omega
      subst hij
      unfold pollCount
      rw [dif_neg]
      intro hcon
      rw [Option.isNone_iff_eq_none] at hcon
      rw [hcon.1] at hsome
      simp at hsome

/-- C7: the wait loop performs at most 10 polls; when no notification has
stored a measurement by the 10th check the loop stops with counter 10 and
the call returns none; when a measurement first appears at check j ≤ 10 the
loop exits exactly at that poll. -/
theorem requestMeasurement_wait_bounded {α : Type} (s : ℕ → Option α) :
    pollCount s 0 ≤ 10 ∧
    ((∀ j, j ≤ 10 → s j = none) →
      pollCount s 0 = 10 ∧ s (pollCount s 0) = none) ∧
    (∀ j, j ≤ 10 → (s j).isSome → (∀ j', j' < j → s j' = none) →
      pollCount s 0 = j) := by
  refine ⟨pollCount_le_aux s 10 0 (by omega) (by omega), ?_, ?_⟩
  · intro hnone
    have h10 := pollCount_none_aux s hnone 10 0 (by omega) (by omega)
    exact ⟨h10, by rw [h10]; exact hnone 10 le_rfl⟩
  · intro j hj hsome hfirst
    exact pollCount_first_aux s hj hsome hfirst j 0 (by omega) (by omega)

/-- C7, instantiated on the all-none measurement stream. -/
theorem requestMeasurement_wait_bounded_witness :
    pollCount (fun _ => (none : Option ℕ)) 0 ≤ 10 ∧
    ((∀ j, j ≤ 10 → (fun _ => (none : Option ℕ)) j = none) →
      pollCount (fun _ => (none : Option ℕ)) 0 = 10 ∧
      (fun _ => (none : Option ℕ)) (pollCount (fun _ => (none : Option ℕ)) 0) = none) ∧
    (∀ j, j ≤ 10 → ((fun _ => (none : Option ℕ)) j).isSome →
      (∀ j', j' < j → (fun _ => (none : Option ℕ)) j' = none) →
      pollCount (fun _ => (none : Option ℕ)) 0 = j) :=
  requestMeasurement_wait_bounded (fun _ => none)

/-! ### The scan callback -/

/-- A discovered BLE device, address and name as character lists. -/
structure BLEDevice where
  address : List Char
  name : List Char

/-- The vendor MAC prefix the scan callback filters on. -/
def vendorMac : List Char := "4c:65:a8:".toList

/-- Lowercasing, the meaning of Python's `str.lower` on ASCII addresses. -/
def lowerL (l : List Char) : List Char := l.map Char.toLower

/-- `p` is a prefix of `s`, the meaning of Python's `str.startswith`. -/
def hasPrefixL : List Char → List Char → Bool
  | [], _ => true
  | _ :: _, [] => false
  | p :: ps, c :: cs => p == c && hasPrefixL ps cs

/-- One invocation of the `scan` callback: an already-seen address does
nothing; a new address is appended to `found_devices`, and the device is
reported (address and name printed) only when the name is non-empty and
the lowercased address starts with the vendor prefix. -/
def scanStep (found : List (List Char)) (d : BLEDevice) :
    List (List Char) × Option (List Char × List Char) :=
  if d.address ∈ found then (found, none)
  else (found ++ [d.address],
    if d.name ≠ [] ∧ hasPrefixL vendorMac (lowerL d.address) then
      some (d.address, d.name)
    else none)

/-- C9: the scan callback reports a device only if its name is non-empty
and its lowercased address starts with "4c:65:a8:"; every newly seen
device is counted (appended to `found_devices`) whether reported or not;
an already-processed address is skipped entirely. -/
theorem scan_reports_vendor_only (found : List (List Char)) (d : BLEDevice) :
    (d.address ∈ found → scanStep found d = (found, none)) ∧
    (d.address ∉ found →
      (scanStep found d).1 = found ++ [d.address] ∧
      ((scanStep found d).2 = some (d.address, d.name) ↔
        d.name ≠ [] ∧ hasPrefixL vendorMac (lowerL d.address) = true) ∧
      ((scanStep found d).2 = none ↔
        ¬ (d.name ≠ [] ∧ hasPrefixL vendorMac (lowerL d.address) = true))) := by
  constructor
  · intro hmem
    unfold scanStep
    rw [if_pos hmem]
  · intro hmem
    unfold scanStep
    rw [if_neg hmem]
    refine ⟨rfl, ?_, ?_⟩
    · constructor
      · intro hrep
        by_contra hcon
        rw [if_neg hcon] at hrep
        exact Option.noConfusion hrep
      · intro hcond
        rw [if_pos hcond]
    · constructor
      · intro hnone hcond
        rw [if_pos hcond] at hnone
        exact Option.noConfusion hnone
      · intro hcon
        rw [if_neg hcon]

/-- C9, instantiated: a fresh vendor device with a name is reported; the
same address seen again is skipped. -/
theorem scan_reports_vendor_only_witness :
    (("4C:65:A8:01:02:03".toList ∈ ([] : List (List Char)) →
      scanStep [] ⟨"4C:65:A8:01:02:03".toList, "MJ_HT_V1".toList⟩ = ([], none)) ∧
    ("4C:65:A8:01:02:03".toList ∉ ([] : List (List Char)) →
      (scanStep [] ⟨"4C:65:A8:01:02:03".toList, "MJ_HT_V1".toList⟩).1
        = [] ++ ["4C:65:A8:01:02:03".toList] ∧
      ((scanStep [] ⟨"4C:65:A8:01:02:03".toList, "MJ_HT_V1".toList⟩).2
          = some ("4C:65:A8:01:02:03".toList, "MJ_HT_V1".toList) ↔
        "MJ_HT_V1".toList ≠ [] ∧
          hasPrefixL vendorMac (lowerL "4C:65:A8:01:02:03".toList) = true) ∧
      ((scanStep [] ⟨"4C:65:A8:01:02:03".toList, "MJ_HT_V1".toList⟩).2 = none ↔
        ¬ ("MJ_HT_V1".toList ≠ [] ∧
          hasPrefixL vendorMac (lowerL "4C:65:A8:01:02:03".toList) = true)))) :=
  scan_reports_vendor_only [] ⟨"4C:65:A8:01:02:03".toList, "MJ_HT_V1".toList⟩

/-! ### The notification handler of `requestMeasurement` -/

/-- Membership in the character class `[0-9\.]` of the pattern. -/
def isDigitDot (c : Char) : Bool := c.isDigit || c == '.'

/-- `re.match("T=([0-9\.]+) H=([0-9\.]+)", response)`: anchored at the
start, literal `T=`, a maximal nonempty run from the class, literal
` H=`, a second maximal nonempty run; trailing characters are ignored.
Returns the two captured groups. -/
def matchTH (s : List Char) : Option (List Char × List Char) :=
  match s with
  | 'T' :: '=' :: rest =>
    let g1 := rest.takeWhile isDigitDot
    match rest.dropWhile isDigitDot with
    | ' ' :: 'H' :: '=' :: rest2 =>
      let g2 := rest2.takeWhile isDigitDot
      if g1.isEmpty || g2.isEmpty then none else some (g1, g2)
    | _ => none
  | _ => none

/-- Numeric value of a digit run. -/
def natOfDigits (l : List Char) : ℕ := l.foldl (fun a c => 10 * a + (c.toNat - 48)) 0

/-- Python's `float()` on a `[0-9.]` token: at most one dot and at least
one digit, otherwise `ValueError` (modelled as `none`). -/
def pyFloat (l : List Char) : Option ℚ :=
  if l.isEmpty || !(l.all isDigitDot) then none
  else if l.count '.' = 0 then some (natOfDigits l)
  else if l.count '.' = 1 then
    let intPart := l.takeWhile (fun c => c != '.')
    let fracPart := (l.dropWhile (fun c => c != '.')).tail
    if intPart.isEmpty && fracPart.isEmpty then none
    else some ((natOfDigits intPart : ℚ) + (natOfDigits fracPart : ℚ) / 10 ^ fracPart.length)
  else none

/-- `notification_handler`: a matching payload parses the two groups and
replaces the stored measurement; a non-matching payload, a `float()`
failure, or an exception from the `Measurement` constructor leaves the
stored measurement unchanged. -/
noncomputable def notifStep (st : Option Measurement) (payload : List Char) :
    Option Measurement :=
  match matchTH payload with
  | none => st
  | some (g1, g2) =>
    match pyFloat g1, pyFloat g2 with
    | some tv, some hv =>
      match mkMeasurement (tv : ℝ) (hv : ℝ) with
      | some m => some m
      | none => st
    | _, _ => st

lemma notifStep_none_of (st : Option Measurement) (q : List Char)
    (hq : matchTH q = none) : notifStep st q = st := by
  unfold notifStep
  rw [hq]

lemma foldl_notifStep_const (l : List (List Char)) (st : Option Measurement)
    (hl : ∀ q ∈ l, matchTH q = none) : l.foldl notifStep st = st := by
  induction l generalizing st with
  | nil => rfl
  | cons q qs ih =>
    rw [List.foldl_cons, notifStep_none_of st q (hl q (by simp))]
    exact ih st (fun r hr => hl r (by simp [hr]))

/-- C10: a payload that does not match `T=([0-9\.]+) H=([0-9\.]+)` leaves
the stored measurement unchanged; `"T=-5.0 H=40.0"` does not match, since
`-` is outside the character class; and when every payload delivered
during the wait fails to match, the stored measurement is still `none`
when the loop exits, so `requestMeasurement` returns no measurement. -/
theorem notification_requires_pattern (st : Option Measurement) (p : List Char)
    (ps : List (List Char)) (hp : matchTH p = none)
    (hps : ∀ q ∈ ps, matchTH q = none) :
    notifStep st p = st ∧
    matchTH ("T=-5.0 H=40.0".toList) = none ∧
    (∀ j, (ps.take j).foldl notifStep none = none) ∧
    (ps.take (pollCount (fun j => (ps.take j).foldl notifStep none) 0)).foldl
      notifStep none = none := by
  have hall : ∀ j, (ps.take j).foldl notifStep none = none := fun j =>
    foldl_notifStep_const (ps.take j) none
      (fun q hq => hps q (List.take_subset j ps hq))
  exact ⟨notifStep_none_of st p hp, by decide, hall, hall _⟩

/-- C10, instantiated on the negative-temperature payload. -/
theorem notification_requires_pattern_witness :
    notifStep none ("T=-5.0 H=40.0".toList) = none ∧
    matchTH ("T=-5.0 H=40.0".toList) = none ∧
    (∀ j, (["T=-5.0 H=40.0".toList].take j).foldl notifStep none = none) ∧
    (["T=-5.0 H=40.0".toList].take
        (pollCount (fun j => (["T=-5.0 H=40.0".toList].take j).foldl notifStep none) 0)).foldl
      notifStep none = none :=
  notification_requires_pattern none ("T=-5.0 H=40.0".toList)
    ["T=-5.0 H=40.0".toList] (by decide)
    (fun q hq => by
      rw [List.mem_singleton] at hq
      subst hq
      decide)
